import Mathlib

/-!
Verification of the LLM deployment service (`app.py`) against its
natural-language specification.

The development shallowly embeds the parts of the program the claims are
about: the request normalizer (`RequestValidator.validate_request`), the
deployment ledger and the create-vs-update decision in `deploy()`, the
repository publisher adapter (`GitHubManager.create_repository` /
`update_existing_repository`, with the external hosting service modelled
as an explicit state), the notification retry loop
(`EvaluationNotifier.notify_evaluation`, with the network modelled as a
sequence of attempt outcomes), and the `/status` lookup.

Request payloads are modelled as JSON-like values (`Value`) and Python
dictionaries as ordered association lists (`PyDict`), with Python's
truthiness, `dict.get` / `dict.setdefault` / assignment semantics, and
`str.replace` (all occurrences, left to right) reproduced explicitly.
-/

namespace LlmDeploy

/-- A JSON-like Python value, as received by `deploy()` after
`request.get_json()`.  Booleans and floats do not occur in any behaviour
the claims are about and are omitted. -/
inductive Value where
  | vnull
  | vstr (s : String)
  | vint (n : Int)
  | vlist (xs : List Value)
  | vdict (xs : List (String × Value))
deriving Repr

/-- Python dictionaries: ordered association lists with unique keys. -/
abbrev PyDict := List (String × Value)

/-- Python truthiness (`bool(v)`): `None`, `""`, `0`, `[]`, and the empty
dict are falsy; everything else here is truthy. -/
def truthy : Value → Bool
  | Value.vnull => false
  | Value.vstr s => s != ""
  | Value.vint n => n != 0
  | Value.vlist xs => !xs.isEmpty
  | Value.vdict xs => !xs.isEmpty

/-- Lookup `d[k]` (also `d.get(k)` when wrapped in `Option`). -/
def aget {α : Type} : List (String × α) → String → Option α
  | [], _ => none
  | (k', v') :: rest, k => if k' == k then some v' else aget rest k

/-- Assignment `d[k] = v`: replace in place if the key exists, else append. -/
def aset {α : Type} : List (String × α) → String → α → List (String × α)
  | [], k, v => [(k, v)]
  | (k', v') :: rest, k, v =>
    if k' == k then (k', v) :: rest else (k', v') :: aset rest k v

/-- Python `d.setdefault(k, v)`. -/
def asetd {α : Type} (d : List (String × α)) (k : String) (v : α) :
    List (String × α) :=
  match aget d k with
  | some _ => d
  | none => d ++ [(k, v)]

/-- Mutation of the value stored at `k`, as when deploy assigns the
repo name field of an existing deployment_state entry in place. -/
def aupd {α : Type} : List (String × α) → String → (α → α) → List (String × α)
  | [], _, _ => []
  | (k', v') :: rest, k, f =>
    if k' == k then (k', f v') :: aupd rest k f
    else (k', v') :: aupd rest k f

/-- Python `d.get(k, default)`. -/
def agetD {α : Type} (d : List (String × α)) (k : String) (v : α) : α :=
  (aget d k).getD v

/-- Python `k in d`. -/
def amem {α : Type} (d : List (String × α)) (k : String) : Bool :=
  (aget d k).isSome

/-- Boolean infix test on lists (the executable side of `<:+:`). -/
def infixB (pat : List Char) : List Char → Bool
  | [] => pat.isEmpty
  | c :: rest => pat.isPrefixOf (c :: rest) || infixB pat rest

/-- Python `pat in s` substring containment. -/
def strContains (hay pat : String) : Bool :=
  infixB pat.data hay.data

/-- Python `s.lower()` (ASCII, which is all the program feeds it). -/
def strLower (s : String) : String :=
  ⟨s.data.map Char.toLower⟩

/-- One left-to-right, non-overlapping pass of Python `str.replace`
over the character list.  The `Nat` argument is fuel bounding the
number of characters still to scan (structural recursion); every use
supplies at least the length of the list, which makes the fuel
irrelevant to the result. -/
def replaceListF (pat repl : List Char) : Nat → List Char → List Char
  | _, [] => []
  | 0, l => l
  | fuel + 1, c :: rest =>
    if pat.isPrefixOf (c :: rest) then
      if pat.isEmpty then c :: rest
      else repl ++ replaceListF pat repl fuel ((c :: rest).drop pat.length)
    else c :: replaceListF pat repl fuel rest

/-- Python `s.replace(pat, repl)`: every occurrence, scanning left to
right without overlap. -/
def pyReplace (s pat repl : String) : String :=
  ⟨replaceListF pat.data repl.data s.data.length s.data⟩

/-- The chain task.replace("-round2a", "").replace("-round2b", "")
.replace("-round2", "") of app.py lines 618 and 1107: the base task id
used for the deployment key and for the repository fallback search. -/
def stripRound2 (task : String) : String :=
  pyReplace (pyReplace (pyReplace task "-round2a" "") "-round2b" "") "-round2" ""

mutual

/-- Python `repr(v)` for the values of the model (`str` and `repr` agree
on everything except strings). -/
def pyRepr : Value → String
  | Value.vnull => "None"
  | Value.vstr s => "\x27" ++ s ++ "\x27"
  | Value.vint n => toString n
  | Value.vlist xs => "[" ++ String.intercalate ", " (pyReprList xs) ++ "]"
  | Value.vdict xs =>
    "\x7b" ++ String.intercalate ", " (pyReprDict xs) ++ "\x7d"

/-- The rendered elements of a Python list. -/
def pyReprList : List Value → List String
  | [] => []
  | v :: vs => pyRepr v :: pyReprList vs

/-- The rendered `key: value` items of a Python dict. -/
def pyReprDict : List (String × Value) → List String
  | [] => []
  | (k, v) :: ps => ("\x27" ++ k ++ "\x27: " ++ pyRepr v) :: pyReprDict ps

end

/-- Python `str(v)`: identical to `repr` except on strings. -/
def pyStr : Value → String
  | Value.vstr s => s
  | v => pyRepr v

/-- Python `int(v)` wrapped in `Option` (`none` models the
`ValueError`/`TypeError` caught by the program). -/
def pyToInt : Value → Option Int
  | Value.vint n => some n
  | Value.vstr s =>
    let t := s.trim
    if t.startsWith "+" then ((t.drop 1).toNat?).map Int.ofNat
    else t.toInt?
  | _ => none

/-- Python `s.isdigit()` (nonempty and all decimal digits). -/
def pyIsDigit (s : String) : Bool :=
  s != "" && s.data.all Char.isDigit

/-! ## Request normalizer (`RequestValidator.validate_request`) -/

/-- The startup configuration of the service; only the shared secret
(`Config.USER_SECRET`) is relevant to the claims. -/
structure Config where
  user_secret : String

/-- Nested-task hoisting (app.py 87-95): if the task field is a dict,
hoist `brief`, `checks`, `attachments`, `evaluation_url` out of it and
replace the task field with the nested id (keeping the dict when the
nested object has no `id`). -/
def hoistTask (d : PyDict) : PyDict :=
  match aget d "task" with
  | some (Value.vdict td) =>
    let d1 := aset d "brief" (agetD td "brief" (Value.vstr ""))
    let d2 := aset d1 "checks" (agetD td "checks" (Value.vlist []))
    let d3 := aset d2 "attachments" (agetD td "attachments" (Value.vlist []))
    let d4 := aset d3 "evaluation_url"
      (agetD td "evaluation_url" (agetD d "evaluation_url" (Value.vstr "")))
    aset d4 "task" (agetD td "id" (Value.vdict td))
  | _ => d

/-- The `data.setdefault(...)` block (app.py 98-102).  The fresh UUID
for the `nonce` default is an input. -/
def applyDefaults (nonce : String) (d : PyDict) : PyDict :=
  let d1 := asetd d "email" (Value.vstr "student@example.com")
  let d2 := asetd d1 "round" (Value.vint 1)
  let d3 := asetd d2 "nonce" (Value.vstr nonce)
  let d4 := asetd d3 "evaluation_url"
    (Value.vstr "http://localhost:5000/evaluation_callback")
  asetd d4 "attachments" (Value.vlist [])

/-- The essential fields checked at app.py 105. -/
inductive EssField where
  | task
  | brief
  | checks
deriving DecidableEq, Repr

/-- The key string of an essential field. -/
def essName : EssField → String
  | EssField.task => "task"
  | EssField.brief => "brief"
  | EssField.checks => "checks"

/-- The test field not in data or not data[field] (app.py 107). -/
def essMissing (d : PyDict) (f : EssField) : Bool :=
  match aget d (essName f) with
  | none => true
  | some v => !truthy v

/-- The first essential field that is absent or falsy, in the order of
the `essential_fields` list (app.py 105-108). -/
def firstMissing (d : PyDict) : Option EssField :=
  [EssField.task, EssField.brief, EssField.checks].find? (essMissing d)

/-- Secret defaulting (app.py 111-114): if `secret` is absent or falsy,
store the configured secret. -/
def applySecret (cfg : Config) (d : PyDict) : PyDict :=
  match aget d "secret" with
  | none => aset d "secret" (Value.vstr cfg.user_secret)
  | some v => if truthy v then d else aset d "secret" (Value.vstr cfg.user_secret)

/-- Round coercion (app.py 117-124): if `round` is present and not
`None` and not an int, try `int(...)`; on failure store `None`. -/
def coerceRound (d : PyDict) : PyDict :=
  match aget d "round" with
  | none => d
  | some Value.vnull => d
  | some (Value.vint _) => d
  | some v =>
    match pyToInt v with
    | some n => aset d "round" (Value.vint n)
    | none => aset d "round" Value.vnull

/-- Substring markers that make the task name count as round 2
(app.py 130). -/
def round2pats : List String := ["round2", "round-2", "round_2", "r2-", "-r2", "r2_"]

/-- Substring markers that make the task name count as round 1
(app.py 134). -/
def round1pats : List String := ["round1", "round-1", "round_1", "r1-", "-r1", "r1_"]

/-- Task-name round detection (app.py 128-139), reached only when
`round` is absent or `None`. -/
def detectRound (d : PyDict) : PyDict :=
  let task_name := strLower (pyStr (agetD d "task" (Value.vstr "")))
  if round2pats.any (fun p => strContains task_name p) then
    aset d "round" (Value.vint 2)
  else if round1pats.any (fun p => strContains task_name p) then
    aset d "round" (Value.vint 1)
  else
    aset d "round" (Value.vint 1)

/-- The guard at app.py 127: detect from the task name only when
`round` is absent or `None`. -/
def inferRound (d : PyDict) : PyDict :=
  match aget d "round" with
  | none => detectRound d
  | some Value.vnull => detectRound d
  | some _ => d

/-- Rounds outside 1 and 2 default to 1 (app.py 142-144). -/
def clampRound (d : PyDict) : PyDict :=
  match aget d "round" with
  | some (Value.vint 1) => d
  | some (Value.vint 2) => d
  | _ => aset d "round" (Value.vint 1)

/-- The test that the email contains both at-sign and dot (app.py 148).
A truthy
non-string value would raise in Python; the model maps it to `false`,
which no claim exercises. -/
def emailHasAtDot : Value → Bool
  | Value.vstr s => s.data.contains '@' && s.data.contains '.'
  | _ => false

/-- Email repair (app.py 147-150). -/
def fixEmail (d : PyDict) : PyDict :=
  let email := agetD d "email" (Value.vstr "")
  if !truthy email || !emailHasAtDot email then
    aset d "email" (Value.vstr "student@example.com")
  else d

/-- The default check substituted for an empty checks list (app.py 157). -/
def defaultCheck : Value := Value.vstr "document.title.length > 0"

/-- Normalization of one element of `checks` (app.py 162-176): strings
are promoted to objects, objects must carry `js` or `description`,
anything else is rejected. -/
def normalizeCheck (i : Nat) : Value → Except String Value
  | Value.vstr s =>
    Except.ok (Value.vdict
      [("description", Value.vstr s),
       ("js", Value.vstr ("document.title.length > 0 // " ++ s))])
  | Value.vdict td =>
    if !amem td "js" && !amem td "description" then
      Except.error ("Check at index " ++ Nat.repr i ++
        " must have either \x27js\x27 or \x27description\x27 property")
    else Except.ok (Value.vdict td)
  | _ =>
    Except.error ("Check at index " ++ Nat.repr i ++ " must be a string or object")

/-- The loop over the enumerated checks, stopping at
the first invalid element. -/
def normalizeChecksList : Nat → List Value → Except String (List Value)
  | _, [] => Except.ok []
  | i, c :: rest =>
    match normalizeCheck i c with
    | Except.error e => Except.error e
    | Except.ok c' =>
      match normalizeChecksList (i + 1) rest with
      | Except.error e => Except.error e
      | Except.ok rest' => Except.ok (c' :: rest')

/-- Checks validation and normalization (app.py 152-178). -/
def applyChecks (d : PyDict) : Except String PyDict :=
  match aget d "checks" with
  | some (Value.vlist cs) =>
    let cs1 := if cs.isEmpty then [defaultCheck] else cs
    match normalizeChecksList 0 cs1 with
    | Except.error e => Except.error e
    | Except.ok cs2 => Except.ok (aset d "checks" (Value.vlist cs2))
  | _ => Except.error "Checks must be an array"

/-- The validator `RequestValidator.validate_request` (app.py 85-180).
An `Except.ok` returns the mutated dict; `Except.error` carries the
message of the failing return. -/
def validate_request (cfg : Config) (nonce : String) (data : PyDict) :
    Except String PyDict :=
  let d := applyDefaults nonce (hoistTask data)
  match firstMissing d with
  | some f => Except.error ("Missing essential field: " ++ essName f)
  | none =>
    applyChecks (fixEmail (clampRound (inferRound (coerceRound (applySecret cfg d)))))

/-! ## Repository publisher (`GitHubManager`), hosting service modelled
as explicit state -/

/-- The observable state of the external hosting service, plus failure
injection: `failCreate` / `failUpdate` make the corresponding publisher
call raise (network faults, API errors).  `repos` lists the account's
repository names, newest first, mirroring
`get_repos(sort="created", direction="desc")`. -/
structure GithubState where
  repos : List String
  now : Nat
  failCreate : Bool
  failUpdate : Bool
deriving Repr, DecidableEq

/-- The slice of the publisher result consumed downstream:
`repo_name`, and the `updated` flag read back with a `False` default. -/
structure RepoResult where
  repo_name : String
  updated : Bool
deriving Repr, DecidableEq

/-- The external calls a deploy request can make; recorded in order,
attempts included. -/
inductive ExtCall where
  | generate
  | createRepo
  | updateRepo
  | notifyCall
deriving DecidableEq, Repr

/-- The publisher `GitHubManager.create_repository` (app.py 532-597):
`repo_name = f"{task_id}-{timestamp}"`; any raised error is modelled by
`failCreate`. -/
def create_repository (g : GithubState) (task_id : String) :
    Except String (RepoResult × GithubState) × List ExtCall :=
  let repo_name := task_id ++ "-" ++ Nat.repr g.now
  if g.failCreate then
    (Except.error "Repository creation failed", [ExtCall.createRepo])
  else
    (Except.ok (⟨repo_name, false⟩, { g with repos := repo_name :: g.repos }),
     [ExtCall.createRepo])

/-- Dropping a trailing `-<digits>` timestamp from a repository name
(app.py 626-629). -/
def stripTimeSuffix (name : String) : String :=
  let parts := name.splitOn "-"
  if 2 ≤ parts.length && pyIsDigit (parts.getLastD "") then
    String.intercalate "-" parts.dropLast
  else name

/-- The publisher `GitHubManager.update_existing_repository`
(app.py 599-702): use the
stored repository name when it can be fetched; otherwise search existing
repositories for one whose name minus its timestamp suffix equals the
base task id; otherwise fall back to `create_repository`. -/
def update_existing_repository (g : GithubState) (task_id : String)
    (stored : Option String) :
    Except String (RepoResult × GithubState) × List ExtCall :=
  let target0 : Option String :=
    match stored with
    | some r => if g.repos.contains r then some r else none
    | none => none
  let target : Option String :=
    match target0 with
    | some r => some r
    | none => g.repos.find? (fun repo => stripTimeSuffix repo == stripRound2 task_id)
  match target with
  | none => create_repository g task_id
  | some r =>
    if g.failUpdate then (Except.error "Repository update failed", [ExtCall.updateRepo])
    else (Except.ok (⟨r, true⟩, g), [ExtCall.updateRepo])

/-! ## Evaluation notifier (`EvaluationNotifier.notify_evaluation`) -/

/-- What one POST to the evaluation endpoint comes back with: an HTTP
status, or one of the caught request exceptions. -/
inductive AttemptOutcome where
  | status (code : Nat)
  | timeout
  | connError
  | reqError
deriving DecidableEq, Repr

/-- Only a 200 status counts as success (app.py 856). -/
def attemptOk : AttemptOutcome → Bool
  | AttemptOutcome.status c => c == 200
  | _ => false

/-- The bound max_retries = 5 (app.py 841). -/
def max_retries : Nat := 5

/-- The backoff table retry_delays = [1, 2, 4, 8, 16] (app.py 842). -/
def retry_delays : List Nat := [1, 2, 4, 8, 16]

/-- What a run of the retry loop did: the returned boolean, how many
attempts were made, and the `time.sleep` durations in order. -/
structure NotifyRun where
  success : Bool
  attempts : Nat
  sleeps : List Nat
deriving DecidableEq, Repr

/-- The retry loop of `notify_evaluation` (app.py 844-875), over the
outcome of each attempt: stop on the first 200; otherwise sleep
`retry_delays[attempt]` unless this was the last attempt. -/
def notifyGo (outcomes : Nat → AttemptOutcome) : Nat → Nat → NotifyRun
  | _, 0 => ⟨false, 0, []⟩
  | i, rem + 1 =>
    if attemptOk (outcomes i) then ⟨true, 1, []⟩
    else if rem = 0 then ⟨false, 1, []⟩
    else
      let r := notifyGo outcomes (i + 1) rem
      ⟨r.success, r.attempts + 1, (retry_delays.getD i 0) :: r.sleeps⟩

/-- The notifier `EvaluationNotifier.notify_evaluation`, starting at
attempt 0 with
`max_retries` attempts available. -/
def notify_evaluation (outcomes : Nat → AttemptOutcome) : NotifyRun :=
  notifyGo outcomes 0 max_retries

/-! ## Deployment ledger and the `deploy()` orchestrator -/

/-- One record of `deployment_state` (app.py 1137-1140, 1151-1154):
`repo_name` plus `created_at`, with `updated_at` added by round-2
updates. -/
structure LedgerEntry where
  repo_name : String
  created_at : Option String
  updated_at : Option String
deriving DecidableEq, Repr

/-- The in-memory `deployment_state` mapping, keyed by deployment key. -/
abbrev Ledger := List (String × LedgerEntry)

/-- Everything a deploy request can observe or change, beyond the
input: the hosting-service state, the wall clock (`datetime.now()`
serialized), the fresh nonce, whether the GitHub manager initialized,
and the network behaviour seen by the notifier. -/
structure DeployEnv where
  github : GithubState
  github_available : Bool
  now_iso : String
  nonce : String
  notify_outcomes : Nat → AttemptOutcome

/-- The observable outcome of one `POST /api/deploy` request: HTTP
status, the `code` field of the JSON reply (`"SUCCESS"` stands for the
success reply, which has no `code` key), the ledger and hosting state
afterwards, each ledger snapshot passed to `save_deployment_state`, and
the external calls made. -/
structure DeployResult where
  status : Nat
  code : String
  ledger : Ledger
  github : GithubState
  saved : List Ledger
  calls : List ExtCall

/-- The key built at app.py 1106-1108 from the request email and the
base task name, joined by a dash (an f-string, so both parts go through
Python str()). -/
def deploymentKey (data : PyDict) : String :=
  pyStr (agetD data "email" (Value.vstr "")) ++ "-" ++
    stripRound2 (pyStr (agetD data "task" (Value.vstr "")))

/-- The round-2 test on the values of the model. -/
def isRoundTwo (v : Option Value) : Bool :=
  match v with
  | some (Value.vint 2) => true
  | _ => false

/-- A publisher failure propagates to the generic handler at
app.py 1196-1205: HTTP 500, `DEPLOYMENT_ERROR`, nothing saved. -/
def mkPublishErr (L : Ledger) (g : GithubState) (pc : List ExtCall) : DeployResult :=
  ⟨500, "DEPLOYMENT_ERROR", L, g, [], ExtCall.generate :: pc⟩

/-- A successful publish: write the ledger, flush it, notify the
evaluator (whose boolean result the response ignores), reply 200. -/
def mkPublishOk (env : DeployEnv) (L2 : Ledger) (g : GithubState)
    (pc : List ExtCall) : DeployResult :=
  let _evaluation_success := notify_evaluation env.notify_outcomes
  ⟨200, "SUCCESS", L2, g, [L2], ExtCall.generate :: (pc ++ [ExtCall.notifyCall])⟩

/-- The body of `deploy()` after successful validation (app.py
1081-1174): code generation, the round-2 create-vs-update decision
against the ledger, the ledger write-and-flush, and the notification. -/
def deployCore (env : DeployEnv) (L : Ledger) (data : PyDict) : DeployResult :=
  if !env.github_available then
    ⟨500, "GITHUB_UNAVAILABLE", L, env.github, [], []⟩
  else
    let taskStr := pyStr (agetD data "task" (Value.vstr ""))
    let key := deploymentKey data
    if isRoundTwo (aget data "round") then
      match aget L key with
      | some entry =>
        match update_existing_repository env.github taskStr (some entry.repo_name) with
        | (Except.error _, pc) => mkPublishErr L env.github pc
        | (Except.ok (res, g2), pc) =>
          let L2 := aupd L key (fun e =>
            { e with repo_name := res.repo_name, updated_at := some env.now_iso })
          mkPublishOk env L2 g2 pc
      | none =>
        match create_repository env.github taskStr with
        | (Except.error _, pc) => mkPublishErr L env.github pc
        | (Except.ok (res, g2), pc) =>
          let L2 := aset L key ⟨res.repo_name, some env.now_iso, none⟩
          mkPublishOk env L2 g2 pc
    else
      match create_repository env.github taskStr with
      | (Except.error _, pc) => mkPublishErr L env.github pc
      | (Except.ok (res, g2), pc) =>
        let L2 := aset L key ⟨res.repo_name, some env.now_iso, none⟩
        mkPublishOk env L2 g2 pc

/-- The early secret gate (app.py 1035-1042): reject iff a truthy
secret is supplied that differs from `config.USER_SECRET`. -/
def secretGateRejects (cfg : Config) (d : PyDict) : Bool :=
  match aget d "secret" with
  | some (Value.vstr s) => s != "" && s != cfg.user_secret
  | some v => truthy v
  | none => false

/-- The status code chosen for a failed validation (app.py 1049-1057). -/
def errStatusOf (msg : String) : Nat :=
  let m := strLower msg
  if strContains m "secret" then 401
  else if strContains m "missing" || strContains m "field" then 400
  else 422

/-- The `code` field chosen for a failed validation (app.py 1049-1057). -/
def errCodeOf (msg : String) : String :=
  let m := strLower msg
  if strContains m "secret" then "INVALID_SECRET"
  else if strContains m "missing" || strContains m "field" then "MISSING_REQUIRED_FIELD"
  else "VALIDATION_ERROR"

/-- The `POST /api/deploy` handler (app.py 1004-1205): empty-body
check, early secret gate, validation, the optional validate-only exit,
then `deployCore`. -/
def deploy (cfg : Config) (env : DeployEnv) (L : Ledger) (data0 : PyDict)
    (validateOnly : Bool) : DeployResult :=
  if data0.isEmpty then ⟨400, "EMPTY_REQUEST", L, env.github, [], []⟩
  else if secretGateRejects cfg data0 then
    ⟨401, "INVALID_SECRET", L, env.github, [], []⟩
  else
    match validate_request cfg env.nonce data0 with
    | Except.error msg =>
      ⟨errStatusOf msg, errCodeOf msg, L, env.github, [], []⟩
    | Except.ok data =>
      if validateOnly then ⟨200, "VALIDATION_SUCCESS", L, env.github, [], []⟩
      else deployCore env L data

/-- The `GET /status/<task_id>?email=` handler (app.py 1233-1250):
lookup by the raw `f"{email}-{task_id}"` key, 200 with the record or
404. -/
def get_deployment_status (L : Ledger) (task_id : String) (email : String) :
    Nat × Option LedgerEntry :=
  let deployment_key := email ++ "-" ++ task_id
  match aget L deployment_key with
  | some info => (200, some info)
  | none => (404, none)

/-! ## Executable predicates, the spec-side base-task id, and fixtures -/

/-- No proper nonempty suffix of `pat` is a prefix of `s`
(executable form). -/
def noSufPreB (pat s : List Char) : Bool :=
  pat.tails.all (fun y => y.isEmpty || !(y.isPrefixOf s))

/-- A border-free pattern: no proper nonempty suffix of `pat` is also
a prefix of `pat` (executable form). -/
def borderFreeB (pat : List Char) : Bool :=
  pat.tails.all (fun y => y.isEmpty || y == pat || !(y.isPrefixOf pat))

/-- The ten decimal digit characters. -/
def digitChars : List Char := ['0', '1', '2', '3', '4', '5', '6', '7', '8', '9']

/-- Executable `endsWith` over the character list. -/
def strEndsWith (s suffix : String) : Bool :=
  suffix.data.isSuffixOf s.data

/-- Executable `dropRight` over the character list. -/
def strDropRight (s : String) (n : Nat) : String :=
  ⟨s.data.take (s.data.length - n)⟩

/-- The base-task computation as the spec words it: one of the literal
suffixes `-round2a`, `-round2b`, `-round2` stripped, longest match
first, applied once, and only as a trailing suffix. -/
def specBaseTaskId (task : String) : String :=
  if strEndsWith task "-round2a" then strDropRight task 8
  else if strEndsWith task "-round2b" then strDropRight task 8
  else if strEndsWith task "-round2" then strDropRight task 7
  else task

/-- A round-2 task id with no `round` field at all. -/
def requestNoRound : PyDict :=
  [("task", Value.vstr "census-round2"), ("brief", Value.vstr "b"),
   ("checks", Value.vlist [Value.vstr "c"])]

/-- A request whose `checks` field is present but empty. -/
def requestEmptyChecks : PyDict :=
  [("task", Value.vstr "t1"), ("brief", Value.vstr "b"),
   ("checks", Value.vlist [])]


/-- Fixture: a configured secret. -/
def cfgEx : Config := ⟨"sek"⟩

/-- Fixture: a round-2 request for task `census`. -/
def requestRound2 : PyDict :=
  [("task", Value.vstr "census"), ("brief", Value.vstr "b"),
   ("checks", Value.vlist [Value.vstr "c"]), ("round", Value.vint 2)]

/-- Fixture: the ledger after a round-1 deploy of `census` stored
repository `census-111`. -/
def ledgerEx : Ledger :=
  [("student@example.com-census",
    (⟨"census-111", some "T0", none⟩ : LedgerEntry))]

/-- Fixture: a hosting service that has lost the stored repository. -/
def envNoRepo : DeployEnv :=
  ⟨⟨[], 999, false, false⟩, true, "T1", "n", fun _ => AttemptOutcome.timeout⟩

/-! ## Association-list lemmas -/

theorem aget_aset_self {α : Type} (d : List (String × α)) (k : String) (v : α) :
    aget (aset d k v) k = some v := by
  induction d with
  | nil => simp [aset, aget]
  | cons p rest ih =>
    obtain ⟨k', v'⟩ := p
    by_cases h : k' = k
    · simp [aset, aget, h]
    · simp [aset, aget, h, ih]

theorem aget_aset_ne {α : Type} (d : List (String × α)) (k k2 : String) (v : α)
    (h : k ≠ k2) : aget (aset d k v) k2 = aget d k2 := by
  induction d with
  | nil => simp [aset, aget, h]
  | cons p rest ih =>
    obtain ⟨k', v'⟩ := p
    by_cases h1 : k' = k
    · subst h1
      simp [aset, aget, h]
    · by_cases h2 : k' = k2
      · subst h2
        simp [aset, aget, h1]
      · simp [aset, aget, h1, h2, ih]

theorem aget_append {α : Type} (d e : List (String × α)) (k : String) :
    aget (d ++ e) k = match aget d k with
      | some v => some v
      | none => aget e k := by
  induction d with
  | nil => simp [aget]
  | cons p rest ih =>
    obtain ⟨k', v'⟩ := p
    by_cases h : k' = k <;> simp [aget, h, ih]

theorem asetd_present {α : Type} (d : List (String × α)) (k : String) (v w : α)
    (h : aget d k = some w) : asetd d k v = d := by
  simp [asetd, h]

theorem aget_asetd_absent {α : Type} (d : List (String × α)) (k : String) (v : α)
    (h : aget d k = none) : aget (asetd d k v) k = some v := by
  simp [asetd, h, aget_append, aget]

theorem aget_asetd_ne {α : Type} (d : List (String × α)) (k k2 : String) (v : α)
    (h : k ≠ k2) : aget (asetd d k v) k2 = aget d k2 := by
  unfold asetd
  cases hd : aget d k with
  | some w => rfl
  | none =>
    rw [aget_append]
    cases hd2 : aget d k2 with
    | some w => rfl
    | none => simp [aget, h]

theorem aget_aupd_self {α : Type} (d : List (String × α)) (k : String) (f : α → α) :
    aget (aupd d k f) k = (aget d k).map f := by
  induction d with
  | nil => simp [aupd, aget]
  | cons p rest ih =>
    obtain ⟨k', v'⟩ := p
    by_cases h : k' = k
    · subst h
      simp [aupd, aget]
    · simp [aupd, aget, h, ih]

theorem keys_aupd {α : Type} (d : List (String × α)) (k : String) (f : α → α) :
    (aupd d k f).map Prod.fst = d.map Prod.fst := by
  induction d with
  | nil => rfl
  | cons p rest ih =>
    obtain ⟨k', v'⟩ := p
    by_cases h : k' = k
    · subst h
      simp [aupd, ih]
    · simp [aupd, h, ih]

theorem aget_eq_none_iff {α : Type} (d : List (String × α)) (k : String) :
    aget d k = none ↔ k ∉ d.map Prod.fst := by
  induction d with
  | nil => simp [aget]
  | cons p rest ih =>
    obtain ⟨k', v'⟩ := p
    by_cases h : k' = k
    · subst h
      simp [aget]
    · have h2 : ¬k = k' := fun hh => h hh.symm
      simp [aget, h, h2, ih]

theorem keys_aset_mem {α : Type} (d : List (String × α)) (k : String) (v : α)
    (h : k ∈ d.map Prod.fst) : (aset d k v).map Prod.fst = d.map Prod.fst := by
  induction d with
  | nil => simp at h
  | cons p rest ih =>
    obtain ⟨k', v'⟩ := p
    by_cases h1 : k' = k
    · simp [aset, h1]
    · have : k ∈ rest.map Prod.fst := by
        simp only [List.map_cons, List.mem_cons] at h
        exact h.resolve_left (fun hh => h1 hh.symm)
      simp [aset, h1, ih this]

theorem keys_aset_not_mem {α : Type} (d : List (String × α)) (k : String) (v : α)
    (h : k ∉ d.map Prod.fst) :
    (aset d k v).map Prod.fst = d.map Prod.fst ++ [k] := by
  induction d with
  | nil => simp [aset]
  | cons p rest ih =>
    obtain ⟨k', v'⟩ := p
    simp only [List.map_cons, List.mem_cons] at h
    push_neg at h
    have h1 : ¬k' = k := fun hh => h.1 hh.symm
    simp [aset, h1, ih h.2]

theorem nodup_keys_aset {α : Type} (d : List (String × α)) (k : String) (v : α)
    (h : (d.map Prod.fst).Nodup) : ((aset d k v).map Prod.fst).Nodup := by
  by_cases hm : k ∈ d.map Prod.fst
  · rw [keys_aset_mem d k v hm]; exact h
  · rw [keys_aset_not_mem d k v hm]
    simp [List.nodup_append, h, hm]

/-! ## Substring and replacement lemmas -/

theorem infixB_iff (pat : List Char) : ∀ l, infixB pat l = true ↔ pat <:+: l := by
  intro l
  induction l with
  | nil => simp [infixB]
  | cons c rest ih => simp [infixB, List.infix_cons_iff, ih]

/-- A prefix of `a ++ b` is a prefix of `a`, or all of `a` plus a prefix
of `b`. -/
theorem prefix_append_decomp {α : Type} {pat a b : List α} (h : pat <+: a ++ b) :
    pat <+: a ∨ ∃ y, pat = a ++ y ∧ y <+: b := by
  by_cases hl : pat.length ≤ a.length
  · exact Or.inl (List.prefix_of_prefix_length_le h (List.prefix_append a b) hl)
  · push_neg at hl
    refine Or.inr ⟨List.take (pat.length - a.length) b, ?_, List.take_prefix _ _⟩
    have h2 := List.prefix_iff_eq_take.mp h
    rwa [List.take_append_eq_append_take, List.take_of_length_le (le_of_lt hl)] at h2

/-- An infix of `a ++ b` is an infix of `a`, an infix of `b`, or splits
into a nonempty suffix of `a` followed by a nonempty prefix of `b`. -/
theorem infix_append_decomp {α : Type} {pat : List α} :
    ∀ {a b : List α}, pat <:+: a ++ b →
      pat <:+: a ∨ pat <:+: b ∨
        ∃ x y, pat = x ++ y ∧ x ≠ [] ∧ y ≠ [] ∧ x <:+ a ∧ y <+: b := by
  intro a
  induction a with
  | nil =>
    intro b h
    exact Or.inr (Or.inl (by simpa using h))
  | cons c a' ih =>
    intro b h
    rw [List.cons_append, List.infix_cons_iff] at h
    rcases h with hpre | hinf
    · rcases @prefix_append_decomp α pat (c :: a') b (by simpa using hpre) with
        h1 | ⟨y, hy, hyb⟩
      · exact Or.inl h1.isInfix
      · by_cases hy0 : y = []
        · subst hy0
          rw [List.append_nil] at hy
          exact Or.inl (hy ▸ List.infix_rfl)
        · exact Or.inr (Or.inr ⟨c :: a', y, hy, by simp, hy0, List.suffix_rfl, hyb⟩)
    · rcases ih hinf with h1 | h1 | ⟨x, y, hxy, hx0, hy0, hxa, hyb⟩
      · exact Or.inl (List.infix_cons h1)
      · exact Or.inr (Or.inl h1)
      · exact Or.inr (Or.inr ⟨x, y, hxy, hx0, hy0, hxa.trans (List.suffix_cons c a'), hyb⟩)

/-- A nonempty pattern whose characters all avoid the characters of a
nonempty middle block cannot occur across it: an occurrence in
`a ++ mid ++ b` lies inside `a` or inside `b`. -/
theorem infix_split_around {pat mid : List Char} (hp : pat ≠ [])
    (hdisj : ∀ c ∈ pat, c ∉ mid) (hm : mid ≠ []) {a b : List Char}
    (h : pat <:+: a ++ (mid ++ b)) : pat <:+: a ∨ pat <:+: b := by
  rcases infix_append_decomp h with h1 | h1 | ⟨x, y, hxy, hx0, hy0, _, hyb⟩
  · exact Or.inl h1
  · rcases infix_append_decomp h1 with h2 | h2 | ⟨x, y, hxy, hx0, hy0, hxm, hyb⟩
    · obtain ⟨c, hc⟩ := List.exists_mem_of_ne_nil pat hp
      exact absurd (h2.sublist.mem hc) (hdisj c hc)
    · exact Or.inr h2
    · obtain ⟨c, hc⟩ := List.exists_mem_of_ne_nil x hx0
      have hcp : c ∈ pat := hxy ▸ List.mem_append_left y hc
      exact absurd (hxm.sublist.mem hc) (hdisj c hcp)
  · obtain ⟨m, mid', rfl⟩ := List.exists_cons_of_ne_nil hm
    obtain ⟨yh, yt, rfl⟩ := List.exists_cons_of_ne_nil hy0
    rw [List.cons_append, List.cons_prefix_cons] at hyb
    have hyp : yh ∈ pat := hxy ▸ List.mem_append_right x (List.mem_cons_self yh yt)
    exact absurd (hyb.1 ▸ List.mem_cons_self m mid') (hdisj yh hyp)


theorem noSufPreB_spec {pat s : List Char} (h : noSufPreB pat s = true) :
    ∀ y, y <:+ pat → y <+: s → y = [] := by
  intro y hsuf hpre
  have hy := (List.all_eq_true.mp h) y ((List.mem_tails y pat).mpr hsuf)
  rcases Bool.or_eq_true_iff.mp hy with h1 | h1
  · exact List.isEmpty_iff.mp h1
  · have h2 : ¬ (y <+: s) := by
      rw [← List.isPrefixOf_iff_prefix]
      simp only [Bool.not_eq_true'] at h1
      simp [h1]
    exact absurd hpre h2


theorem borderFreeB_spec {pat : List Char} (h : borderFreeB pat = true) :
    ∀ y, y <:+ pat → y <+: pat → y = [] ∨ y = pat := by
  intro y hsuf hpre
  have hy := (List.all_eq_true.mp h) y ((List.mem_tails y pat).mpr hsuf)
  rcases Bool.or_eq_true_iff.mp hy with h1 | h1
  · rcases Bool.or_eq_true_iff.mp h1 with h2 | h2
    · exact Or.inl (List.isEmpty_iff.mp h2)
    · exact Or.inr (by simpa using h2)
  · have h2 : ¬ (y <+: pat) := by
      rw [← List.isPrefixOf_iff_prefix]
      simp only [Bool.not_eq_true'] at h1
      simp [h1]
    exact absurd hpre h2

/-- Replacement is the identity when the pattern does not occur,
whatever the fuel. -/
theorem replaceListF_id_of_no_occ {pat repl : List Char} :
    ∀ (fuel : Nat) (l : List Char), ¬ pat <:+: l →
      replaceListF pat repl fuel l = l := by
  intro fuel
  induction fuel with
  | zero =>
    intro l _
    cases l <;> rfl
  | succ fuel ih =>
    intro l h
    cases l with
    | nil => rfl
    | cons c rest =>
      have hnp : ¬ pat.isPrefixOf (c :: rest) := by
        intro hh
        exact h ( List.isPrefixOf_iff_prefix.mp hh).isInfix
      rw [replaceListF, if_neg hnp, ih rest (fun hh => h (List.infix_cons hh))]

/-- Replacing a border-free pattern by nothing in `base ++ pat`, when
the pattern does not occur in `base`, removes exactly the final
occurrence (given enough fuel). -/
theorem replaceListF_append_pat {pat : List Char} (hp : pat ≠ [])
    (hb : borderFreeB pat = true) :
    ∀ (base : List Char) (fuel : Nat), base.length + 1 ≤ fuel →
      ¬ pat <:+: base → replaceListF pat [] fuel (base ++ pat) = base := by
  intro base
  induction base with
  | nil =>
    intro fuel hfuel _
    cases fuel with
    | zero => omega
    | succ f =>
      cases pat with
      | nil => exact absurd rfl hp
      | cons p ps =>
        rw [List.nil_append, replaceListF,
          if_pos (by simp [ List.isPrefixOf_iff_prefix]),
          if_neg (by simp)]
        have hdrop : (p :: ps).drop (p :: ps).length = [] := List.drop_length _
        rw [hdrop]
        cases f <;> rfl
  | cons c b' ih =>
    intro fuel hfuel h
    have hnp : ¬ pat.isPrefixOf ((c :: b') ++ pat) := by
      intro hh
      have hpre := List.isPrefixOf_iff_prefix.mp hh
      rcases prefix_append_decomp hpre with h1 | ⟨y, hy, hyp⟩
      · exact h h1.isInfix
      · by_cases hy0 : y = []
        · subst hy0
          rw [List.append_nil] at hy
          exact h (hy ▸ List.infix_rfl)
        · have hysuf : y <:+ pat := ⟨c :: b', hy.symm⟩
          rcases borderFreeB_spec hb y hysuf hyp with h2 | h2
          · exact hy0 h2
          · subst h2
            have hlen := congrArg List.length hy
            simp only [List.length_append, List.length_cons] at hlen
            omega
    cases fuel with
    | zero => simp at hfuel
    | succ f =>
      rw [List.cons_append, replaceListF, if_neg (by simpa using hnp)]
      rw [ih f (by simp at hfuel ⊢; omega) (fun hh => h (List.infix_cons hh))]

/-! ## Decimal representations: `Nat.repr` is nonempty and all digits -/


theorem digitChar_mem (m : Nat) (h : m < 10) : Nat.digitChar m ∈ digitChars := by
  have hall : ∀ m' : Nat, m' < 10 → Nat.digitChar m' ∈ digitChars := by decide
  exact hall m h

theorem toDigitsCore_digits (fuel : Nat) :
    ∀ (n : Nat) (ds : List Char), (∀ c ∈ ds, c ∈ digitChars) →
      ∀ c ∈ Nat.toDigitsCore 10 fuel n ds, c ∈ digitChars := by
  induction fuel with
  | zero =>
    intro n ds hds c hc
    exact hds c hc
  | succ fuel ih =>
    intro n ds hds c hc
    simp only [Nat.toDigitsCore] at hc
    have hstep : ∀ c' ∈ Nat.digitChar (n % 10) :: ds, c' ∈ digitChars := by
      intro c' hc'
      rcases List.mem_cons.mp hc' with h1 | h1
      · exact h1 ▸ digitChar_mem _ (Nat.mod_lt _ (by norm_num))
      · exact hds c' h1
    by_cases h : n / 10 = 0
    · rw [if_pos h] at hc
      exact hstep c hc
    · rw [if_neg h] at hc
      exact ih (n / 10) (Nat.digitChar (n % 10) :: ds) hstep c hc

theorem toDigitsCore_len_ge (b fuel : Nat) :
    ∀ (n : Nat) (ds : List Char), ds.length ≤ (Nat.toDigitsCore b fuel n ds).length := by
  induction fuel with
  | zero =>
    intro n ds
    simp [Nat.toDigitsCore]
  | succ fuel ih =>
    intro n ds
    simp only [Nat.toDigitsCore]
    by_cases h : n / b = 0
    · simp [h]
    · rw [if_neg h]
      calc ds.length ≤ (Nat.digitChar (n % b) :: ds).length := by simp
        _ ≤ _ := ih (n / b) _

theorem repr_data_digits (n : Nat) : ∀ c ∈ (Nat.repr n).data, c ∈ digitChars := by
  intro c hc
  have : (Nat.repr n).data = Nat.toDigitsCore 10 (n + 1) n [] := rfl
  rw [this] at hc
  exact toDigitsCore_digits (n + 1) n [] (by simp) c hc

theorem repr_data_ne_nil (n : Nat) : (Nat.repr n).data ≠ [] := by
  have h1 : (Nat.repr n).data = Nat.toDigitsCore 10 (n + 1) n [] := rfl
  rw [h1]
  intro hh
  have h2 : (1 : Nat) ≤ (Nat.toDigitsCore 10 (n + 1) n []).length := by
    simp only [Nat.toDigitsCore]
    by_cases h : n / 10 = 0
    · simp [h]
    · rw [if_neg h]
      calc (1 : Nat) = ([Nat.digitChar (n % 10)] : List Char).length := by simp
        _ ≤ _ := toDigitsCore_len_ge 10 n (n / 10) _
  rw [hh] at h2
  simp at h2

theorem toLower_digit (c : Char) (h : c ∈ digitChars) : Char.toLower c = c := by
  fin_cases h <;> decide

theorem secret_chars_not_digit : ∀ c ∈ "secret".data, c ∉ digitChars := by decide

/-! ## No validation error message mentions the secret -/

theorem map_toLower_repr (i : Nat) :
    (Nat.repr i).data.map Char.toLower = (Nat.repr i).data := by
  have hgen : ∀ l : List Char, (∀ c ∈ l, c ∈ digitChars) →
      l.map Char.toLower = l := by
    intro l
    induction l with
    | nil => intro _; rfl
    | cons c cs ih =>
      intro h
      rw [List.map_cons, toLower_digit c (h c (List.mem_cons_self c cs)),
        ih (fun x hx => h x (List.mem_cons_of_mem c hx))]
  exact hgen _ (repr_data_digits i)

/-- The word secret cannot occur in the lowering of `a ++ Nat.repr i ++ b`
when it occurs in neither side, because the decimal digits in the middle
are disjoint from its letters. -/
theorem strContains_secret_around (i : Nat) (a b : String)
    (ha : strContains (strLower a) "secret" = false)
    (hb : strContains (strLower b) "secret" = false) :
    strContains (strLower (a ++ Nat.repr i ++ b)) "secret" = false := by
  by_contra hcon
  rw [Bool.not_eq_false, strContains, infixB_iff] at hcon
  have hdata : (strLower (a ++ Nat.repr i ++ b)).data
      = (strLower a).data ++ ((Nat.repr i).data ++ (strLower b).data) := by
    show ((a ++ Nat.repr i ++ b).data.map Char.toLower) = _
    rw [String.data_append, String.data_append, List.map_append, List.map_append,
      map_toLower_repr, List.append_assoc]
    rfl
  rw [hdata] at hcon
  have hsplit := @infix_split_around "secret".data (Nat.repr i).data (by decide)
    (fun c hc hmem => secret_chars_not_digit c hc (repr_data_digits i c hmem))
    (repr_data_ne_nil i) (strLower a).data (strLower b).data hcon
  rcases hsplit with h1 | h1
  · rw [strContains, ← Bool.not_eq_true, infixB_iff] at ha
    exact ha h1
  · rw [strContains, ← Bool.not_eq_true, infixB_iff] at hb
    exact hb h1

theorem normalizeCheck_error_shape (i : Nat) (c : Value) (msg : String)
    (h : normalizeCheck i c = Except.error msg) :
    msg = "Check at index " ++ Nat.repr i ++
        " must have either \x27js\x27 or \x27description\x27 property" ∨
      msg = "Check at index " ++ Nat.repr i ++ " must be a string or object" := by
  cases c with
  | vnull => exact Or.inr (Except.error.inj h).symm
  | vstr s => exact absurd h (by simp [normalizeCheck])
  | vint n => exact Or.inr (Except.error.inj h).symm
  | vlist xs => exact Or.inr (Except.error.inj h).symm
  | vdict td =>
    by_cases hd : !amem td "js" && !amem td "description"
    · rw [normalizeCheck, if_pos hd] at h
      exact Or.inl (Except.error.inj h).symm
    · rw [normalizeCheck, if_neg hd] at h
      exact absurd h (by simp)

theorem normalizeChecksList_error_shape :
    ∀ (cs : List Value) (i : Nat) (msg : String),
      normalizeChecksList i cs = Except.error msg →
      ∃ j, msg = "Check at index " ++ Nat.repr j ++
          " must have either \x27js\x27 or \x27description\x27 property" ∨
        msg = "Check at index " ++ Nat.repr j ++ " must be a string or object" := by
  intro cs
  induction cs with
  | nil =>
    intro i msg h
    exact absurd h (by simp [normalizeChecksList])
  | cons c rest ih =>
    intro i msg h
    rw [normalizeChecksList] at h
    cases hc : normalizeCheck i c with
    | error e =>
      rw [hc] at h
      exact ⟨i, (Except.error.inj h) ▸ normalizeCheck_error_shape i c e hc⟩
    | ok c' =>
      rw [hc] at h
      cases hr : normalizeChecksList (i + 1) rest with
      | error e =>
        rw [hr] at h
        exact (Except.error.inj h) ▸ ih (i + 1) e hr
      | ok rest' =>
        rw [hr] at h
        exact absurd h (by simp)

/-- No message returned by a failed validation contains `"secret"`
(lower-cased), so the deploy handler never classifies a validation
failure as `INVALID_SECRET`. -/
theorem validate_error_no_secret (cfg : Config) (nonce : String) (data0 : PyDict)
    (msg : String) (h : validate_request cfg nonce data0 = Except.error msg) :
    strContains (strLower msg) "secret" = false := by
  rw [validate_request] at h
  cases hf : firstMissing (applyDefaults nonce (hoistTask data0)) with
  | some f =>
    simp only [hf] at h
    have hm := (Except.error.inj h).symm
    subst hm
    cases f <;> decide
  | none =>
    simp only [hf, applyChecks] at h
    cases hg : aget (fixEmail (clampRound (inferRound (coerceRound (applySecret cfg
        (applyDefaults nonce (hoistTask data0))))))) "checks" with
    | none =>
      simp only [hg] at h
      have hm := (Except.error.inj h).symm
      subst hm
      decide
    | some v =>
      simp only [hg] at h
      cases v with
      | vlist cs =>
        cases hn : normalizeChecksList 0 (if cs.isEmpty then [defaultCheck] else cs) with
        | error e =>
          simp only [hn] at h
          obtain ⟨j, hj⟩ := normalizeChecksList_error_shape _ _ _ hn
          have hm := (Except.error.inj h).symm
          subst hm
          rcases hj with hj | hj <;> subst hj <;>
            exact strContains_secret_around j _ _ (by decide) (by decide)
        | ok cs2 =>
          simp only [hn] at h
          exact absurd h (by simp)
      | vnull =>
        have hm := (Except.error.inj h).symm
        subst hm
        decide
      | vstr s =>
        have hm := (Except.error.inj h).symm
        subst hm
        decide
      | vint n =>
        have hm := (Except.error.inj h).symm
        subst hm
        decide
      | vdict td =>
        have hm := (Except.error.inj h).symm
        subst hm
        decide

/-! ## What each normalization phase leaves untouched -/

theorem aget_hoistTask_ne (d : PyDict) (k : String) (h1 : k ≠ "brief")
    (h2 : k ≠ "checks") (h3 : k ≠ "attachments") (h4 : k ≠ "evaluation_url")
    (h5 : k ≠ "task") : aget (hoistTask d) k = aget d k := by
  unfold hoistTask
  cases h : aget d "task" with
  | none => rfl
  | some v =>
    cases v with
    | vdict td =>
      rw [aget_aset_ne _ _ _ _ (Ne.symm h5), aget_aset_ne _ _ _ _ (Ne.symm h4),
        aget_aset_ne _ _ _ _ (Ne.symm h3), aget_aset_ne _ _ _ _ (Ne.symm h2),
        aget_aset_ne _ _ _ _ (Ne.symm h1)]
    | vnull => rfl
    | vstr s => rfl
    | vint n => rfl
    | vlist xs => rfl

theorem aget_applyDefaults_ne (nonce : String) (d : PyDict) (k : String)
    (h1 : k ≠ "email") (h2 : k ≠ "round") (h3 : k ≠ "nonce")
    (h4 : k ≠ "evaluation_url") (h5 : k ≠ "attachments") :
    aget (applyDefaults nonce d) k = aget d k := by
  unfold applyDefaults
  rw [aget_asetd_ne _ _ _ _ (Ne.symm h5), aget_asetd_ne _ _ _ _ (Ne.symm h4),
    aget_asetd_ne _ _ _ _ (Ne.symm h3), aget_asetd_ne _ _ _ _ (Ne.symm h2),
    aget_asetd_ne _ _ _ _ (Ne.symm h1)]

theorem aget_applySecret_ne (cfg : Config) (d : PyDict) (k : String)
    (h : k ≠ "secret") : aget (applySecret cfg d) k = aget d k := by
  unfold applySecret
  cases hs : aget d "secret" with
  | none => rw [aget_aset_ne _ _ _ _ (Ne.symm h)]
  | some v =>
    by_cases ht : truthy v
    · simp [ht]
    · simp [ht, aget_aset_ne _ _ _ _ (Ne.symm h)]

theorem aget_coerceRound_ne (d : PyDict) (k : String) (h : k ≠ "round") :
    aget (coerceRound d) k = aget d k := by
  unfold coerceRound
  split
  · rfl
  · rfl
  · rfl
  · split <;> rw [aget_aset_ne _ _ _ _ (Ne.symm h)]

theorem aget_detectRound_ne (d : PyDict) (k : String) (h : k ≠ "round") :
    aget (detectRound d) k = aget d k := by
  unfold detectRound
  by_cases h2 : round2pats.any
      (fun p => strContains (strLower (pyStr (agetD d "task" (Value.vstr "")))) p)
  · simp [h2, aget_aset_ne _ _ _ _ (Ne.symm h)]
  · by_cases h1 : round1pats.any
        (fun p => strContains (strLower (pyStr (agetD d "task" (Value.vstr "")))) p) <;>
      simp [h2, h1, aget_aset_ne _ _ _ _ (Ne.symm h)]

theorem aget_inferRound_ne (d : PyDict) (k : String) (h : k ≠ "round") :
    aget (inferRound d) k = aget d k := by
  unfold inferRound
  split
  · exact aget_detectRound_ne d k h
  · exact aget_detectRound_ne d k h
  · rfl

theorem aget_clampRound_ne (d : PyDict) (k : String) (h : k ≠ "round") :
    aget (clampRound d) k = aget d k := by
  unfold clampRound
  split
  · rfl
  · rfl
  · rw [aget_aset_ne _ _ _ _ (Ne.symm h)]

theorem aget_fixEmail_ne (d : PyDict) (k : String) (h : k ≠ "email") :
    aget (fixEmail d) k = aget d k := by
  unfold fixEmail
  by_cases hc : !truthy (agetD d "email" (Value.vstr "")) ||
      !emailHasAtDot (agetD d "email" (Value.vstr ""))
  · simp only [hc, if_true]
    rw [aget_aset_ne _ _ _ _ (Ne.symm h)]
  · simp [hc]

/-- The value of `secret` after the whole round/email pipeline. -/
theorem aget_pipeline_secret (cfg : Config) (d : PyDict) :
    aget (fixEmail (clampRound (inferRound (coerceRound (applySecret cfg d)))))
        "secret" = aget (applySecret cfg d) "secret" := by
  rw [aget_fixEmail_ne _ _ (by decide), aget_clampRound_ne _ _ (by decide),
    aget_inferRound_ne _ _ (by decide), aget_coerceRound_ne _ _ (by decide)]

theorem aget_applySecret_absent (cfg : Config) (d : PyDict)
    (h : aget d "secret" = none ∨ aget d "secret" = some (Value.vstr "")) :
    aget (applySecret cfg d) "secret" = some (Value.vstr cfg.user_secret) := by
  unfold applySecret
  rcases h with h | h
  · rw [h]
    exact aget_aset_self d "secret" _
  · rw [h]
    simp only [truthy]
    rw [if_neg (by simp)]
    exact aget_aset_self d "secret" _

theorem essMissing_false_iff (d : PyDict) (f : EssField) :
    essMissing d f = false ↔ ∃ v, aget d (essName f) = some v ∧ truthy v = true := by
  unfold essMissing
  cases h : aget d (essName f) with
  | none => simp
  | some v => simp

theorem firstMissing_eq_none (d : PyDict) (h : firstMissing d = none) :
    ∀ f, essMissing d f = false := by
  intro f
  have hall := List.find?_eq_none.mp h
  have : f ∈ [EssField.task, EssField.brief, EssField.checks] := by
    cases f <;> simp
  simpa using hall f this

theorem normalizeChecksList_ok_length :
    ∀ (cs : List Value) (i : Nat) (cs2 : List Value),
      normalizeChecksList i cs = Except.ok cs2 → cs2.length = cs.length := by
  intro cs
  induction cs with
  | nil =>
    intro i cs2 h
    simp only [normalizeChecksList] at h
    cases h
    rfl
  | cons c rest ih =>
    intro i cs2 h
    rw [normalizeChecksList] at h
    cases hc : normalizeCheck i c with
    | error e =>
      rw [hc] at h
      exact absurd h (by simp)
    | ok c' =>
      rw [hc] at h
      cases hr : normalizeChecksList (i + 1) rest with
      | error e =>
        rw [hr] at h
        exact absurd h (by simp)
      | ok rest' =>
        rw [hr] at h
        cases h
        simp [ih (i + 1) rest' hr]

/-- Successful validation yields a dict whose `checks` value is a
non-empty list. -/
theorem validate_ok_checks (cfg : Config) (nonce : String) (data0 data : PyDict)
    (h : validate_request cfg nonce data0 = Except.ok data) :
    ∃ cs, aget data "checks" = some (Value.vlist cs) ∧ cs ≠ [] := by
  rw [validate_request] at h
  cases hf : firstMissing (applyDefaults nonce (hoistTask data0)) with
  | some f =>
    simp only [hf] at h
    exact absurd h (by simp)
  | none =>
    simp only [hf, applyChecks] at h
    have hess := (essMissing_false_iff _ EssField.checks).mp
      (firstMissing_eq_none _ hf EssField.checks)
    obtain ⟨v, hv, htr⟩ := hess
    have hpres : aget (fixEmail (clampRound (inferRound (coerceRound (applySecret cfg
        (applyDefaults nonce (hoistTask data0))))))) "checks"
        = some v := by
      rw [aget_fixEmail_ne _ _ (by decide), aget_clampRound_ne _ _ (by decide),
        aget_inferRound_ne _ _ (by decide), aget_coerceRound_ne _ _ (by decide),
        aget_applySecret_ne _ _ _ (by decide)]
      exact hv
    rw [hpres] at h
    cases v with
    | vlist cs =>
      have hne : cs ≠ [] := by
        simp only [truthy] at htr
        simpa [List.isEmpty_iff] using htr
      have hie : cs.isEmpty = false := by
        cases cs with
        | nil => exact absurd rfl hne
        | cons a l => rfl
      simp only [hie, Bool.false_eq_true, if_false] at h
      cases hn : normalizeChecksList 0 cs with
      | error e =>
        rw [hn] at h
        exact absurd h (by simp)
      | ok cs2 =>
        rw [hn] at h
        cases h
        refine ⟨cs2, aget_aset_self _ _ _, ?_⟩
        have hlen := normalizeChecksList_ok_length cs 0 cs2 hn
        intro hnil
        rw [hnil] at hlen
        exact hne (List.length_eq_zero.mp hlen.symm)
    | vnull => simp [truthy] at htr
    | vstr s => exact absurd h (by simp)
    | vint n => exact absurd h (by simp)
    | vdict td => exact absurd h (by simp)

/-! ## Claim C5: the notification retry protocol -/

theorem attemptOk_iff (o : AttemptOutcome) :
    attemptOk o = true ↔ o = AttemptOutcome.status 200 := by
  cases o <;> simp [attemptOk]

/-- The six possible runs of the retry loop, by the index of the first
successful attempt. -/
theorem notify_cases (outcomes : Nat → AttemptOutcome) :
    (attemptOk (outcomes 0) = true ∧
      notify_evaluation outcomes = ⟨true, 1, []⟩) ∨
    (attemptOk (outcomes 0) = false ∧ attemptOk (outcomes 1) = true ∧
      notify_evaluation outcomes = ⟨true, 2, [1]⟩) ∨
    (attemptOk (outcomes 0) = false ∧ attemptOk (outcomes 1) = false ∧
      attemptOk (outcomes 2) = true ∧
      notify_evaluation outcomes = ⟨true, 3, [1, 2]⟩) ∨
    (attemptOk (outcomes 0) = false ∧ attemptOk (outcomes 1) = false ∧
      attemptOk (outcomes 2) = false ∧ attemptOk (outcomes 3) = true ∧
      notify_evaluation outcomes = ⟨true, 4, [1, 2, 4]⟩) ∨
    (attemptOk (outcomes 0) = false ∧ attemptOk (outcomes 1) = false ∧
      attemptOk (outcomes 2) = false ∧ attemptOk (outcomes 3) = false ∧
      attemptOk (outcomes 4) = true ∧
      notify_evaluation outcomes = ⟨true, 5, [1, 2, 4, 8]⟩) ∨
    (attemptOk (outcomes 0) = false ∧ attemptOk (outcomes 1) = false ∧
      attemptOk (outcomes 2) = false ∧ attemptOk (outcomes 3) = false ∧
      attemptOk (outcomes 4) = false ∧
      notify_evaluation outcomes = ⟨false, 5, [1, 2, 4, 8]⟩) := by
  cases h0 : attemptOk (outcomes 0) <;>
    cases h1 : attemptOk (outcomes 1) <;>
    cases h2 : attemptOk (outcomes 2) <;>
    cases h3 : attemptOk (outcomes 3) <;>
    cases h4 : attemptOk (outcomes 4) <;>
    simp [notify_evaluation, notifyGo, max_retries, retry_delays, h0, h1, h2, h3, h4]

/-- Claim C5: the notifier makes at most 5 attempts; the sleeps between
consecutive attempts follow the prefix of `[1, 2, 4, 8, 16]` of length
`attempts - 1` (so no backoff after the final attempt); it succeeds iff
some attempt within the first five receives a 200; and against a target
that never returns 200 it makes exactly 5 attempts and reports failure. -/
theorem claim_C5 (outcomes : Nat → AttemptOutcome) :
    (notify_evaluation outcomes).attempts ≤ 5 ∧
    (notify_evaluation outcomes).sleeps =
      retry_delays.take ((notify_evaluation outcomes).attempts - 1) ∧
    ((notify_evaluation outcomes).success = true ↔
      ∃ i, i < 5 ∧ outcomes i = AttemptOutcome.status 200) ∧
    ((∀ i, i < 5 → outcomes i ≠ AttemptOutcome.status 200) →
      (notify_evaluation outcomes).attempts = 5 ∧
      (notify_evaluation outcomes).success = false) := by
  rcases notify_cases outcomes with ⟨h0, hr⟩ | ⟨h0, h1, hr⟩ | ⟨h0, h1, h2, hr⟩ |
    ⟨h0, h1, h2, h3, hr⟩ | ⟨h0, h1, h2, h3, h4, hr⟩ | ⟨h0, h1, h2, h3, h4, hr⟩ <;>
      rw [hr] <;> refine ⟨by norm_num, by simp [retry_delays], ?_, ?_⟩
  · exact ⟨fun _ => ⟨0, by omega, (attemptOk_iff _).mp h0⟩, fun _ => rfl⟩
  · intro hall
    exact absurd ((attemptOk_iff _).mp h0) (by simpa using hall 0 (by omega))
  · exact ⟨fun _ => ⟨1, by omega, (attemptOk_iff _).mp h1⟩, fun _ => rfl⟩
  · intro hall
    exact absurd ((attemptOk_iff _).mp h1) (by simpa using hall 1 (by omega))
  · exact ⟨fun _ => ⟨2, by omega, (attemptOk_iff _).mp h2⟩, fun _ => rfl⟩
  · intro hall
    exact absurd ((attemptOk_iff _).mp h2) (by simpa using hall 2 (by omega))
  · exact ⟨fun _ => ⟨3, by omega, (attemptOk_iff _).mp h3⟩, fun _ => rfl⟩
  · intro hall
    exact absurd ((attemptOk_iff _).mp h3) (by simpa using hall 3 (by omega))
  · exact ⟨fun _ => ⟨4, by omega, (attemptOk_iff _).mp h4⟩, fun _ => rfl⟩
  · intro hall
    exact absurd ((attemptOk_iff _).mp h4) (by simpa using hall 4 (by omega))
  · constructor
    · intro hfalse
      exact absurd hfalse (by simp)
    · rintro ⟨i, hi, hp⟩
      have hok := (attemptOk_iff (outcomes i)).mpr hp
      interval_cases i <;> simp_all
  · intro _
    exact ⟨rfl, rfl⟩

/-- Witness for C5: a target that always times out yields exactly 5
attempts and failure. -/
theorem claim_C5_witness :
    (notify_evaluation (fun _ => AttemptOutcome.timeout)).attempts = 5 ∧
    (notify_evaluation (fun _ => AttemptOutcome.timeout)).success = false :=
  (claim_C5 (fun _ => AttemptOutcome.timeout)).2.2.2
    (fun _ _ h => AttemptOutcome.noConfusion h)

/-! ## Claim C10: the `/status` lookup key is not suffix-stripped -/

/-- Claim C10: `GET /status/<task_id>?email=` looks the ledger up under
the raw key `email ++ "-" ++ task_id` (found iff that exact key is
present), so a query using a round-2 task id misses an entry that
`deploy` stored under the base-task key. -/
theorem claim_C10 (L : Ledger) (t e : String) (entry : LedgerEntry)
    (hbase : aget L (e ++ "-" ++ stripRound2 t) = some entry)
    (hraw : aget L (e ++ "-" ++ t) = none) :
    (get_deployment_status L t e).1 = 404 ∧
    ∀ (L2 : Ledger) (t2 e2 : String),
      ((get_deployment_status L2 t2 e2).1 = 200 ↔
        (aget L2 (e2 ++ "-" ++ t2)).isSome = true) := by
  constructor
  · simp [get_deployment_status, hraw]
  · intro L2 t2 e2
    unfold get_deployment_status
    cases h : aget L2 (e2 ++ "-" ++ t2) <;> simp [h]

/-- Witness for C10: the ledger holds `e@x.com-census` (written by a
round-2 deploy of task `census-round2`), yet the status query for
`census-round2` itself answers 404. -/
theorem claim_C10_witness :
    (get_deployment_status [("e@x.com-census",
        (⟨"census-111", some "T0", none⟩ : LedgerEntry))] "census-round2" "e@x.com").1
      = 404 ∧
    ∀ (L2 : Ledger) (t2 e2 : String),
      ((get_deployment_status L2 t2 e2).1 = 200 ↔
        (aget L2 (e2 ++ "-" ++ t2)).isSome = true) :=
  claim_C10 _ "census-round2" "e@x.com" ⟨"census-111", some "T0", none⟩ (by rfl) (by rfl)

/-! ## Claim C3: round inference for an absent `round` field -/


/-- Claim C3 (code bug): with no `round` field, task id
`"census-round2"` normalizes to round 1, not round 2 — the
setdefault of round to 1 at app.py 99 fires before the task-name
inference at app.py 127-139, whose round-not-in-data arm is
unreachable.  The inference does run (and yields 2) when `round` is
explicitly `null`, which pinpoints the dead branch. -/
theorem claim_C3 :
    ((validate_request ⟨"sek"⟩ "n" requestNoRound).toOption.bind
        (fun d => aget d "round") = some (Value.vint 1)) ∧
    ((validate_request ⟨"sek"⟩ "n" (requestNoRound ++ [("round", Value.vnull)])).toOption.bind
        (fun d => aget d "round") = some (Value.vint 2)) :=
  ⟨rfl, rfl⟩

/-! ## Claim C7: missing essentials fail before any external call -/

/-- Claim C7: whenever one of `task`, `brief`, `checks` is absent or
falsy after nested-task hoisting and defaulting, normalization fails
with `Missing essential field: <name>` naming the first such field, and
the deploy handler makes no external call (no generation, no publish,
no notification) on such a request. -/
theorem claim_C7 (cfg : Config) (env : DeployEnv) (L : Ledger) (data0 : PyDict)
    (vOnly : Bool) (f : EssField)
    (hmiss : firstMissing (applyDefaults env.nonce (hoistTask data0)) = some f) :
    validate_request cfg env.nonce data0 =
      Except.error ("Missing essential field: " ++ essName f) ∧
    (deploy cfg env L data0 vOnly).calls = [] := by
  have hval : validate_request cfg env.nonce data0 =
      Except.error ("Missing essential field: " ++ essName f) := by
    rw [validate_request]
    simp only [hmiss]
  refine ⟨hval, ?_⟩
  unfold deploy
  by_cases h0 : data0.isEmpty
  · simp [h0]
  · by_cases h1 : secretGateRejects cfg data0
    · simp [h0, h1]
    · simp [h0, h1, hval]

/-- Witness for C7: a request carrying only a task id is rejected for
its missing `brief` and triggers no external call. -/
theorem claim_C7_witness :
    validate_request ⟨"sek"⟩ "n" [("task", Value.vstr "t1")] =
      Except.error ("Missing essential field: " ++ essName EssField.brief) ∧
    (deploy ⟨"sek"⟩ ⟨⟨[], 7, false, false⟩, true, "T", "n",
      fun _ => AttemptOutcome.timeout⟩ [] [("task", Value.vstr "t1")] false).calls = [] :=
  claim_C7 ⟨"sek"⟩ ⟨⟨[], 7, false, false⟩, true, "T", "n",
    fun _ => AttemptOutcome.timeout⟩ [] [("task", Value.vstr "t1")] false
    EssField.brief (by rfl)

/-! ## Claim C9: base task id computation -/


/-- A pattern absent from `base` and from `s`, none of whose nonempty
suffixes starts `s`, does not occur in `base ++ s`. -/
theorem not_infix_append {pat base s : List Char}
    (h1 : ¬ pat <:+: base) (h2 : ¬ pat <:+: s) (h3 : noSufPreB pat s = true) :
    ¬ pat <:+: base ++ s := by
  intro h
  rcases infix_append_decomp h with hh | hh | ⟨x, y, hxy, hx0, hy0, hxa, hyb⟩
  · exact h1 hh
  · exact h2 hh
  · exact hy0 (noSufPreB_spec h3 y ⟨x, hxy.symm⟩ hyb)

/-- Replacement by the empty string is the identity when `pat` does
not occur in `s`. -/
theorem pyReplace_id (s pat : String) (h : ¬ pat.data <:+: s.data) :
    pyReplace s pat "" = s :=
  String.ext (replaceListF_id_of_no_occ s.data.length s.data h)

/-- Replacing `pat` by the empty string in `base ++ pat` strips the
final `pat` when `pat` is border-free and does not occur in `base`. -/
theorem pyReplace_strip (base pat : String) (hp : pat.data ≠ [])
    (hb : borderFreeB pat.data = true) (h : ¬ pat.data <:+: base.data) :
    pyReplace (base ++ pat) pat "" = base := by
  apply String.ext
  show replaceListF pat.data [] (base ++ pat).data.length (base ++ pat).data = base.data
  rw [String.data_append]
  apply replaceListF_append_pat hp hb base.data _ _ h
  have : pat.data.length ≥ 1 := by
    cases hd : pat.data with
    | nil => exact absurd hd hp
    | cons a l => simp
  simp only [List.length_append]
  omega

/-- Claim C9, counterexample: on `"census-round2-extra"` the code
removes the interior `-round2` marker, while the claimed
suffix-stripping leaves the task id unchanged. -/
theorem claim_C9_counterexample :
    stripRound2 "census-round2-extra" = "census-extra" ∧
    specBaseTaskId "census-round2-extra" = "census-round2-extra" ∧
    stripRound2 "census-round2-extra" ≠ specBaseTaskId "census-round2-extra" := by
  refine ⟨rfl, ?_, ?_⟩ <;> decide

/-- Claim C9 (amended): the base task id removes every occurrence of
`-round2a`, then `-round2b`, then `-round2` anywhere in the task id;
when the only occurrence of any marker is a single trailing suffix, this
coincides with stripping that suffix once. -/
theorem claim_C9 (base suf : String)
    (hsuf : suf = "-round2a" ∨ suf = "-round2b" ∨ suf = "-round2" ∨ suf = "")
    (hno : ¬ ("-round2".data <:+: base.data)) :
    stripRound2 (base ++ suf) = base := by
  have hnoA : ¬ ("-round2a".data <:+: base.data) := fun hh =>
    hno ((List.IsPrefix.isInfix (by decide)).trans hh)
  have hnoB : ¬ ("-round2b".data <:+: base.data) := fun hh =>
    hno ((List.IsPrefix.isInfix (by decide)).trans hh)
  rcases hsuf with rfl | rfl | rfl | rfl
  · rw [stripRound2, pyReplace_strip base "-round2a" (by decide) (by decide) hnoA,
      pyReplace_id base "-round2b" hnoB, pyReplace_id base "-round2" hno]
  · rw [stripRound2,
      pyReplace_id (base ++ "-round2b") "-round2a" (by
        rw [String.data_append]
        exact not_infix_append hnoA (by decide) (by decide)),
      pyReplace_strip base "-round2b" (by decide) (by decide) hnoB,
      pyReplace_id base "-round2" hno]
  · rw [stripRound2,
      pyReplace_id (base ++ "-round2") "-round2a" (by
        rw [String.data_append]
        exact not_infix_append hnoA (by decide) (by decide)),
      pyReplace_id (base ++ "-round2") "-round2b" (by
        rw [String.data_append]
        exact not_infix_append hnoB (by decide) (by decide)),
      pyReplace_strip base "-round2" (by decide) (by decide) hno]
  · have hbe : base ++ "" = base := String.ext (by simp)
    rw [hbe, stripRound2, pyReplace_id base "-round2a" hnoA,
      pyReplace_id base "-round2b" hnoB, pyReplace_id base "-round2" hno]

/-- Witness for C9 (amended): a clean trailing `-round2a` suffix is
stripped once. -/
theorem claim_C9_witness : stripRound2 ("census" ++ "-round2a") = "census" :=
  claim_C9 "census" "-round2a" (Or.inl rfl) (by decide)

/-! ## Claim C8: an empty checks sequence -/


/-- Claim C8, counterexample: a request with `checks: []` is rejected
with `Missing essential field: checks`; the empty-checks default
substitution never runs. -/
theorem claim_C8_counterexample :
    validate_request ⟨"sek"⟩ "n" requestEmptyChecks =
      Except.error "Missing essential field: checks" := rfl

/-- Claim C8 (amended): an empty `checks` sequence is falsy, so the
essential-field check rejects it with `MissingField` before the
empty-list default substitution (app.py 156-158) can run; for requests
that do validate, `checks` is a non-empty list after normalization. -/
theorem claim_C8 (cfg : Config) (nonce : String) (data0 : PyDict)
    (htask : essMissing (applyDefaults nonce (hoistTask data0)) EssField.task = false)
    (hbrief : essMissing (applyDefaults nonce (hoistTask data0)) EssField.brief = false)
    (hchecks : aget (applyDefaults nonce (hoistTask data0)) "checks"
      = some (Value.vlist [])) :
    validate_request cfg nonce data0 =
      Except.error "Missing essential field: checks" ∧
    ∀ (data0' data : PyDict), validate_request cfg nonce data0' = Except.ok data →
      ∃ cs, aget data "checks" = some (Value.vlist cs) ∧ cs ≠ [] := by
  constructor
  · have hc : essMissing (applyDefaults nonce (hoistTask data0)) EssField.checks = true := by
      unfold essMissing
      rw [show essName EssField.checks = "checks" from rfl, hchecks]
      rfl
    have hfm : firstMissing (applyDefaults nonce (hoistTask data0))
        = some EssField.checks := by
      unfold firstMissing
      rw [List.find?_cons_of_neg _ (by simp [htask]),
        List.find?_cons_of_neg _ (by simp [hbrief]),
        List.find?_cons_of_pos _ hc]
    rw [validate_request]
    simp only [hfm]
    rfl
  · intro data0' data h
    exact validate_ok_checks cfg nonce data0' data h

/-- Witness for C8: the concrete empty-checks request from the
counterexample satisfies the amended theorem's hypotheses. -/
theorem claim_C8_witness :
    (validate_request ⟨"sek"⟩ "n" requestEmptyChecks =
      Except.error "Missing essential field: checks") ∧
    ∀ (data0' data : PyDict),
      validate_request ⟨"sek"⟩ "n" data0' = Except.ok data →
      ∃ cs, aget data "checks" = some (Value.vlist cs) ∧ cs ≠ [] :=
  claim_C8 ⟨"sek"⟩ "n" requestEmptyChecks rfl rfl rfl

/-! ## Claim C1: round 2 with an existing ledger entry -/

/-- A deploy request that passes the empty-body check, the secret gate,
and validation reduces to the post-validation pipeline. -/
theorem deploy_ok_core (cfg : Config) (env : DeployEnv) (L : Ledger)
    (data0 data : PyDict) (hne : data0.isEmpty = false)
    (hgate : secretGateRejects cfg data0 = false)
    (hval : validate_request cfg env.nonce data0 = Except.ok data) :
    deploy cfg env L data0 false = deployCore env L data := by
  unfold deploy
  simp only [hne, hgate, hval, Bool.false_eq_true, if_false]


/-- Claim C1, counterexample: a round-2 request whose deployment key has
a ledger entry, but whose stored repository cannot be located (and no
fallback matches), invokes CREATE — the publisher creates `census-999`
and the ledger entry's `repo_name` changes from `census-111`. -/
theorem claim_C1_counterexample :
    aget ledgerEx "student@example.com-census" =
      some ⟨"census-111", some "T0", none⟩ ∧
    (deploy cfgEx envNoRepo ledgerEx requestRound2 false).calls =
      [ExtCall.generate, ExtCall.createRepo, ExtCall.notifyCall] ∧
    (aget (deploy cfgEx envNoRepo ledgerEx requestRound2 false).ledger
        "student@example.com-census").map LedgerEntry.repo_name =
      some "census-999" := by
  refine ⟨rfl, rfl, rfl⟩

/-- Claim C1 (amended): for a round-2 request whose deployment key has
an existing ledger entry *and whose stored repository name exists in the
hosting service*, the publisher performs UPDATE and never CREATE, and
the ledger entry's `repo_name` for that key is unchanged after the
request (whether or not the update call succeeds). -/
theorem claim_C1 (cfg : Config) (env : DeployEnv) (L : Ledger)
    (data0 data : PyDict) (entry : LedgerEntry)
    (hne : data0.isEmpty = false)
    (hgate : secretGateRejects cfg data0 = false)
    (hval : validate_request cfg env.nonce data0 = Except.ok data)
    (hav : env.github_available = true)
    (hr2 : aget data "round" = some (Value.vint 2))
    (hstored : aget L (deploymentKey data) = some entry)
    (hrepo : env.github.repos.contains entry.repo_name = true) :
    ExtCall.createRepo ∉ (deploy cfg env L data0 false).calls ∧
    ExtCall.updateRepo ∈ (deploy cfg env L data0 false).calls ∧
    (aget (deploy cfg env L data0 false).ledger (deploymentKey data)).map
      LedgerEntry.repo_name = some entry.repo_name := by
  have hupd : update_existing_repository env.github
      (pyStr (agetD data "task" (Value.vstr ""))) (some entry.repo_name) =
      (if env.github.failUpdate then
        (Except.error "Repository update failed", [ExtCall.updateRepo])
       else (Except.ok (⟨entry.repo_name, true⟩, env.github), [ExtCall.updateRepo])) := by
    unfold update_existing_repository
    simp only [hrepo, if_true]
  rw [deploy_ok_core cfg env L data0 data hne hgate hval]
  unfold deployCore
  simp only [hav, Bool.not_true, Bool.false_eq_true, if_false]
  rw [show isRoundTwo (aget data "round") = true by rw [hr2]; rfl, if_pos rfl]
  simp only [hstored, hupd]
  cases hfu : env.github.failUpdate with
  | true =>
    refine ⟨by simp [mkPublishErr], by simp [mkPublishErr], ?_⟩
    show (aget L (deploymentKey data)).map LedgerEntry.repo_name = some entry.repo_name
    rw [hstored]
    rfl
  | false =>
    refine ⟨by simp [mkPublishOk], by simp [mkPublishOk], ?_⟩
    show (aget (aupd L (deploymentKey data) _) (deploymentKey data)).map
      LedgerEntry.repo_name = some entry.repo_name
    rw [aget_aupd_self, hstored]
    rfl

/-- Witness for C1 (amended): the stored repository `census-111` exists,
so the round-2 request updates it in place. -/
theorem claim_C1_witness :
    ExtCall.createRepo ∉
      (deploy cfgEx ⟨⟨["census-111"], 999, false, false⟩, true, "T1", "n",
        fun _ => AttemptOutcome.timeout⟩ ledgerEx requestRound2 false).calls ∧
    ExtCall.updateRepo ∈
      (deploy cfgEx ⟨⟨["census-111"], 999, false, false⟩, true, "T1", "n",
        fun _ => AttemptOutcome.timeout⟩ ledgerEx requestRound2 false).calls ∧
    (aget (deploy cfgEx ⟨⟨["census-111"], 999, false, false⟩, true, "T1", "n",
        fun _ => AttemptOutcome.timeout⟩ ledgerEx requestRound2 false).ledger
      (deploymentKey ((validate_request cfgEx "n" requestRound2).toOption.getD []))).map
      LedgerEntry.repo_name = some "census-111" :=
  claim_C1 cfgEx ⟨⟨["census-111"], 999, false, false⟩, true, "T1", "n",
      fun _ => AttemptOutcome.timeout⟩ ledgerEx requestRound2
    ((validate_request cfgEx "n" requestRound2).toOption.getD [])
    ⟨"census-111", some "T0", none⟩ rfl rfl rfl rfl rfl rfl rfl

/-! ## Claim C2: round 2 with no existing ledger entry -/

/-- Claim C2: a round-2 request whose deployment key has no ledger
entry succeeds by creating a new repository; a fresh ledger entry with
the new repository's name and a `created_at` timestamp is written under
the key; ledger keys stay unique; and a subsequent round-2 request for
the same key (against the resulting hosting state) resolves to UPDATE,
not CREATE. -/
theorem claim_C2 (cfg : Config) (env : DeployEnv) (L : Ledger)
    (data0 data : PyDict)
    (hne : data0.isEmpty = false)
    (hgate : secretGateRejects cfg data0 = false)
    (hval : validate_request cfg env.nonce data0 = Except.ok data)
    (hav : env.github_available = true)
    (hr2 : aget data "round" = some (Value.vint 2))
    (hnone : aget L (deploymentKey data) = none)
    (hok : env.github.failCreate = false)
    (hnodup : (L.map Prod.fst).Nodup)
    (env2 : DeployEnv)
    (h2g : env2.github = (deploy cfg env L data0 false).github)
    (h2n : env2.nonce = env.nonce)
    (h2a : env2.github_available = true) :
    (deploy cfg env L data0 false).status = 200 ∧
    ExtCall.createRepo ∈ (deploy cfg env L data0 false).calls ∧
    aget (deploy cfg env L data0 false).ledger (deploymentKey data) =
      some ⟨pyStr (agetD data "task" (Value.vstr "")) ++ "-" ++ Nat.repr env.github.now,
        some env.now_iso, none⟩ ∧
    ((deploy cfg env L data0 false).ledger.map Prod.fst).Nodup ∧
    ExtCall.updateRepo ∈ (deploy cfg env2 (deploy cfg env L data0 false).ledger
      data0 false).calls ∧
    ExtCall.createRepo ∉ (deploy cfg env2 (deploy cfg env L data0 false).ledger
      data0 false).calls := by
  have hcre : create_repository env.github (pyStr (agetD data "task" (Value.vstr ""))) =
      (Except.ok (⟨pyStr (agetD data "task" (Value.vstr "")) ++ "-" ++
          Nat.repr env.github.now, false⟩,
        { env.github with repos := (pyStr (agetD data "task" (Value.vstr "")) ++ "-" ++
          Nat.repr env.github.now) :: env.github.repos }),
       [ExtCall.createRepo]) := by
    unfold create_repository
    simp only [hok, Bool.false_eq_true, if_false]
  have hfirst : deploy cfg env L data0 false =
      mkPublishOk env
        (aset L (deploymentKey data)
          ⟨pyStr (agetD data "task" (Value.vstr "")) ++ "-" ++ Nat.repr env.github.now,
            some env.now_iso, none⟩)
        { env.github with repos := (pyStr (agetD data "task" (Value.vstr "")) ++ "-" ++
          Nat.repr env.github.now) :: env.github.repos }
        [ExtCall.createRepo] := by
    rw [deploy_ok_core cfg env L data0 data hne hgate hval]
    unfold deployCore
    simp only [hav, Bool.not_true, Bool.false_eq_true, if_false]
    rw [show isRoundTwo (aget data "round") = true by rw [hr2]; rfl, if_pos rfl]
    simp only [hnone, hcre]
  rw [hfirst]
  have hval2 : validate_request cfg env2.nonce data0 = Except.ok data := by
    rw [h2n]
    exact hval
  have hsecond : deploy cfg env2
      (aset L (deploymentKey data)
        ⟨pyStr (agetD data "task" (Value.vstr "")) ++ "-" ++ Nat.repr env.github.now,
          some env.now_iso, none⟩) data0 false =
      deployCore env2
        (aset L (deploymentKey data)
          ⟨pyStr (agetD data "task" (Value.vstr "")) ++ "-" ++ Nat.repr env.github.now,
            some env.now_iso, none⟩) data :=
    deploy_ok_core cfg env2 _ data0 data hne hgate hval2
  have hcontains : env2.github.repos.contains
      (pyStr (agetD data "task" (Value.vstr "")) ++ "-" ++ Nat.repr env.github.now) = true := by
    rw [h2g, hfirst]
    simp [mkPublishOk]
  have hupd2 : update_existing_repository env2.github
      (pyStr (agetD data "task" (Value.vstr "")))
      (some (pyStr (agetD data "task" (Value.vstr "")) ++ "-" ++ Nat.repr env.github.now)) =
      (if env2.github.failUpdate then
        (Except.error "Repository update failed", [ExtCall.updateRepo])
       else (Except.ok (⟨pyStr (agetD data "task" (Value.vstr "")) ++ "-" ++
          Nat.repr env.github.now, true⟩, env2.github), [ExtCall.updateRepo])) := by
    unfold update_existing_repository
    simp only [hcontains, if_true]
  refine ⟨rfl, by simp [mkPublishOk], aget_aset_self _ _ _,
    nodup_keys_aset _ _ _ hnodup, ?_, ?_⟩ <;>
    rw [show (mkPublishOk env
        (aset L (deploymentKey data)
          ⟨pyStr (agetD data "task" (Value.vstr "")) ++ "-" ++ Nat.repr env.github.now,
            some env.now_iso, none⟩)
        { env.github with repos := (pyStr (agetD data "task" (Value.vstr "")) ++ "-" ++
          Nat.repr env.github.now) :: env.github.repos }
        [ExtCall.createRepo]).ledger =
      aset L (deploymentKey data)
        ⟨pyStr (agetD data "task" (Value.vstr "")) ++ "-" ++ Nat.repr env.github.now,
          some env.now_iso, none⟩ from rfl, hsecond] <;>
    unfold deployCore <;>
    simp only [h2a, Bool.not_true, Bool.false_eq_true, if_false] <;>
    rw [show isRoundTwo (aget data "round") = true by rw [hr2]; rfl, if_pos rfl] <;>
    simp only [aget_aset_self, hupd2] <;>
    cases hfu : env2.github.failUpdate <;>
    simp [mkPublishOk, mkPublishErr]

/-- Witness for C2: a round-2 deploy of `census` with an empty ledger
creates `census-999`, records it, and a repeat request updates it. -/
theorem claim_C2_witness :
    (deploy cfgEx envNoRepo [] requestRound2 false).status = 200 ∧
    ExtCall.createRepo ∈ (deploy cfgEx envNoRepo [] requestRound2 false).calls ∧
    aget (deploy cfgEx envNoRepo [] requestRound2 false).ledger
      (deploymentKey ((validate_request cfgEx "n" requestRound2).toOption.getD [])) =
      some ⟨pyStr (agetD ((validate_request cfgEx "n" requestRound2).toOption.getD [])
          "task" (Value.vstr "")) ++ "-" ++ Nat.repr 999, some "T1", none⟩ ∧
    ((deploy cfgEx envNoRepo [] requestRound2 false).ledger.map Prod.fst).Nodup ∧
    ExtCall.updateRepo ∈ (deploy cfgEx
      ⟨(deploy cfgEx envNoRepo [] requestRound2 false).github, true, "T2", "n",
        fun _ => AttemptOutcome.timeout⟩
      (deploy cfgEx envNoRepo [] requestRound2 false).ledger requestRound2 false).calls ∧
    ExtCall.createRepo ∉ (deploy cfgEx
      ⟨(deploy cfgEx envNoRepo [] requestRound2 false).github, true, "T2", "n",
        fun _ => AttemptOutcome.timeout⟩
      (deploy cfgEx envNoRepo [] requestRound2 false).ledger requestRound2 false).calls :=
  claim_C2 cfgEx envNoRepo [] requestRound2
    ((validate_request cfgEx "n" requestRound2).toOption.getD [])
    rfl rfl rfl rfl rfl rfl rfl (by simp)
    ⟨(deploy cfgEx envNoRepo [] requestRound2 false).github, true, "T2", "n",
      fun _ => AttemptOutcome.timeout⟩ rfl rfl rfl

/-! ## Claim C4: publisher failure leaves the ledger untouched -/

/-- With both failure flags set, every path through
`update_existing_repository` raises. -/
theorem update_fail (g : GithubState) (task : String) (stored : Option String)
    (hfc : g.failCreate = true) (hfu : g.failUpdate = true) :
    ∃ m pc, update_existing_repository g task stored = (Except.error m, pc) := by
  cases stored with
  | none =>
    cases hf : g.repos.find? (fun repo => stripTimeSuffix repo == stripRound2 task) with
    | none =>
      unfold update_existing_repository
      simp only [hf]
      unfold create_repository
      simp only [hfc, if_true]
      exact ⟨_, _, rfl⟩
    | some r =>
      unfold update_existing_repository
      simp only [hf, hfu, if_true]
      exact ⟨_, _, rfl⟩
  | some r0 =>
    by_cases hc : g.repos.contains r0 = true
    · unfold update_existing_repository
      simp only [hc, if_true, hfu]
      exact ⟨_, _, rfl⟩
    · have hc2 : g.repos.contains r0 = false := by simpa using hc
      cases hf : g.repos.find? (fun repo => stripTimeSuffix repo == stripRound2 task) with
      | none =>
        unfold update_existing_repository
        simp only [hc2, Bool.false_eq_true, if_false, hf]
        unfold create_repository
        simp only [hfc, if_true]
        exact ⟨_, _, rfl⟩
      | some r =>
        unfold update_existing_repository
        simp only [hc2, Bool.false_eq_true, if_false, hf, hfu, if_true]
        exact ⟨_, _, rfl⟩

/-- Claim C4: if the repository create or update call raises, the
request is answered with an error (HTTP 500, `DEPLOYMENT_ERROR`), the
in-memory ledger is unchanged, and nothing is flushed to the ledger
file — the ledger is written only after the publisher call succeeds. -/
theorem claim_C4 (cfg : Config) (env : DeployEnv) (L : Ledger)
    (data0 data : PyDict)
    (hne : data0.isEmpty = false)
    (hgate : secretGateRejects cfg data0 = false)
    (hval : validate_request cfg env.nonce data0 = Except.ok data)
    (hav : env.github_available = true)
    (hfc : env.github.failCreate = true)
    (hfu : env.github.failUpdate = true) :
    (deploy cfg env L data0 false).status = 500 ∧
    (deploy cfg env L data0 false).code = "DEPLOYMENT_ERROR" ∧
    (deploy cfg env L data0 false).ledger = L ∧
    (deploy cfg env L data0 false).saved = [] := by
  rw [deploy_ok_core cfg env L data0 data hne hgate hval]
  have hcre : create_repository env.github (pyStr (agetD data "task" (Value.vstr ""))) =
      (Except.error "Repository creation failed", [ExtCall.createRepo]) := by
    unfold create_repository
    simp only [hfc, if_true]
  unfold deployCore
  simp only [hav, Bool.not_true, Bool.false_eq_true, if_false]
  cases hr : isRoundTwo (aget data "round")
  · simp only [Bool.false_eq_true, if_false, hcre]
    exact ⟨rfl, rfl, rfl, rfl⟩
  · simp only [if_true]
    cases hs : aget L (deploymentKey data) with
    | none =>
      simp only [hcre]
      exact ⟨rfl, rfl, rfl, rfl⟩
    | some entry =>
      obtain ⟨m, pc, he⟩ := update_fail env.github
        (pyStr (agetD data "task" (Value.vstr ""))) (some entry.repo_name) hfc hfu
      simp only [he]
      exact ⟨rfl, rfl, rfl, rfl⟩

/-- Witness for C4: with the hosting service failing, a round-2 deploy
against the example ledger reports 500 and leaves the ledger and its
file untouched. -/
theorem claim_C4_witness :
    (deploy cfgEx ⟨⟨["census-111"], 999, true, true⟩, true, "T1", "n",
      fun _ => AttemptOutcome.timeout⟩ ledgerEx requestRound2 false).status = 500 ∧
    (deploy cfgEx ⟨⟨["census-111"], 999, true, true⟩, true, "T1", "n",
      fun _ => AttemptOutcome.timeout⟩ ledgerEx requestRound2 false).code =
      "DEPLOYMENT_ERROR" ∧
    (deploy cfgEx ⟨⟨["census-111"], 999, true, true⟩, true, "T1", "n",
      fun _ => AttemptOutcome.timeout⟩ ledgerEx requestRound2 false).ledger = ledgerEx ∧
    (deploy cfgEx ⟨⟨["census-111"], 999, true, true⟩, true, "T1", "n",
      fun _ => AttemptOutcome.timeout⟩ ledgerEx requestRound2 false).saved = [] :=
  claim_C4 cfgEx ⟨⟨["census-111"], 999, true, true⟩, true, "T1", "n",
      fun _ => AttemptOutcome.timeout⟩ ledgerEx requestRound2
    ((validate_request cfgEx "n" requestRound2).toOption.getD [])
    rfl rfl rfl rfl rfl rfl

/-! ## Claim C6: the secret gate and the default-secret convenience -/

/-- When the inbound request has no secret (or an empty one),
successful validation stores the configured secret in the dict. -/
theorem validate_ok_secret_default (cfg : Config) (nonce : String)
    (data0 data : PyDict)
    (hsec : aget data0 "secret" = none ∨ aget data0 "secret" = some (Value.vstr ""))
    (h : validate_request cfg nonce data0 = Except.ok data) :
    aget data "secret" = some (Value.vstr cfg.user_secret) := by
  rw [validate_request] at h
  cases hf : firstMissing (applyDefaults nonce (hoistTask data0)) with
  | some f =>
    simp only [hf] at h
    exact absurd h (by simp)
  | none =>
    simp only [hf, applyChecks] at h
    have hd : aget (applyDefaults nonce (hoistTask data0)) "secret"
        = aget data0 "secret" := by
      rw [aget_applyDefaults_ne _ _ _ (by decide) (by decide) (by decide)
          (by decide) (by decide),
        aget_hoistTask_ne _ _ (by decide) (by decide) (by decide) (by decide) (by decide)]
    have hpipe : aget (fixEmail (clampRound (inferRound (coerceRound (applySecret cfg
        (applyDefaults nonce (hoistTask data0))))))) "secret"
        = some (Value.vstr cfg.user_secret) := by
      rw [aget_pipeline_secret]
      apply aget_applySecret_absent
      rw [hd]
      exact hsec
    cases hg : aget (fixEmail (clampRound (inferRound (coerceRound (applySecret cfg
        (applyDefaults nonce (hoistTask data0))))))) "checks" with
    | none =>
      simp only [hg] at h
      exact absurd h (by simp)
    | some v =>
      simp only [hg] at h
      cases v with
      | vlist cs =>
        cases hn : normalizeChecksList 0 (if cs.isEmpty then [defaultCheck] else cs) with
        | error e =>
          simp only [hn] at h
          exact absurd h (by simp)
        | ok cs2 =>
          simp only [hn] at h
          cases h
          rw [aget_aset_ne _ _ _ _ (by decide)]
          exact hpipe
      | vnull => exact absurd h (by simp)
      | vstr s => exact absurd h (by simp)
      | vint n => exact absurd h (by simp)
      | vdict td => exact absurd h (by simp)

/-- The post-validation pipeline never answers 401 or `INVALID_SECRET`:
those come only from the early gate. -/
theorem deployCore_no401 (env : DeployEnv) (L : Ledger) (data : PyDict) :
    (deployCore env L data).status ≠ 401 ∧
    (deployCore env L data).code ≠ "INVALID_SECRET" := by
  unfold deployCore
  split
  · simp
  · split
    · cases hs : aget L (deploymentKey data) with
      | some entry =>
        simp only [hs]
        rcases hu : update_existing_repository env.github
            (pyStr (agetD data "task" (Value.vstr ""))) (some entry.repo_name) with ⟨exc, pc⟩
        try simp only [hu]
        cases exc with
        | error e => simp [mkPublishErr]
        | ok v =>
          obtain ⟨res, g2⟩ := v
          simp [mkPublishOk]
      | none =>
        simp only [hs]
        rcases hc : create_repository env.github
            (pyStr (agetD data "task" (Value.vstr ""))) with ⟨exc, pc⟩
        try simp only [hc]
        cases exc with
        | error e => simp [mkPublishErr]
        | ok v =>
          obtain ⟨res, g2⟩ := v
          simp [mkPublishOk]
    · rcases hc : create_repository env.github
          (pyStr (agetD data "task" (Value.vstr ""))) with ⟨exc, pc⟩
      try simp only [hc]
      cases exc with
      | error e => simp [mkPublishErr]
      | ok v =>
        obtain ⟨res, g2⟩ := v
        simp [mkPublishOk]

/-- Claim C6: a supplied non-empty wrong secret is rejected with 401
`INVALID_SECRET` before any processing; an absent or empty secret never
causes a secret rejection — the configured secret is substituted during
normalization and processing continues. -/
theorem claim_C6 (cfg : Config) (env : DeployEnv) (L : Ledger) (vOnly : Bool) :
    (∀ (data0 : PyDict) (s : String),
      aget data0 "secret" = some (Value.vstr s) → s ≠ "" → s ≠ cfg.user_secret →
      (deploy cfg env L data0 vOnly).status = 401 ∧
      (deploy cfg env L data0 vOnly).code = "INVALID_SECRET" ∧
      (deploy cfg env L data0 vOnly).calls = []) ∧
    (∀ data0 : PyDict,
      (aget data0 "secret" = none ∨ aget data0 "secret" = some (Value.vstr "")) →
      (deploy cfg env L data0 vOnly).status ≠ 401 ∧
      (deploy cfg env L data0 vOnly).code ≠ "INVALID_SECRET" ∧
      ∀ data : PyDict, validate_request cfg env.nonce data0 = Except.ok data →
        aget data "secret" = some (Value.vstr cfg.user_secret)) := by
  constructor
  · intro data0 s hs hs1 hs2
    have hne : data0.isEmpty = false := by
      cases data0 with
      | nil => simp [aget] at hs
      | cons p rest => rfl
    have hgate : secretGateRejects cfg data0 = true := by
      unfold secretGateRejects
      rw [hs]
      simp [hs1, hs2]
    unfold deploy
    simp [hne, hgate]
  · intro data0 hsec
    have hgate : secretGateRejects cfg data0 = false := by
      unfold secretGateRejects
      rcases hsec with h | h <;> rw [h]
      rfl
    by_cases hne : data0.isEmpty = true
    · have h0 : data0 = [] := by
        cases data0 with
        | nil => rfl
        | cons a l => simp [List.isEmpty] at hne
      subst h0
      refine ⟨by unfold deploy; simp, by unfold deploy; simp, ?_⟩
      intro data hv
      rw [validate_request] at hv
      have hfm : firstMissing (applyDefaults env.nonce (hoistTask [])) =
          some EssField.task := rfl
      simp only [hfm] at hv
      exact absurd hv (by simp)
    · have hne2 : data0.isEmpty = false := by simpa using hne
      cases hv : validate_request cfg env.nonce data0 with
      | error msg =>
        have hnos := validate_error_no_secret cfg env.nonce data0 msg hv
        unfold deploy
        simp only [hne2, Bool.false_eq_true, if_false, hgate, hv]
        refine ⟨?_, ?_, ?_⟩
        · show errStatusOf msg ≠ 401
          unfold errStatusOf
          simp only [hnos, Bool.false_eq_true, if_false]
          split <;> decide
        · show errCodeOf msg ≠ "INVALID_SECRET"
          unfold errCodeOf
          simp only [hnos, Bool.false_eq_true, if_false]
          split <;> decide
        · intro data hvv
          exact absurd hvv (by simp)
      | ok data1 =>
        unfold deploy
        simp only [hne2, Bool.false_eq_true, if_false, hgate, hv]
        cases vOnly with
        | true =>
          refine ⟨by simp, by simp, ?_⟩
          intro data hvv
          obtain rfl : data1 = data := Except.ok.inj hvv
          exact validate_ok_secret_default cfg env.nonce data0 data1 hsec hv
        | false =>
          refine ⟨(deployCore_no401 env L data1).1, (deployCore_no401 env L data1).2, ?_⟩
          intro data hvv
          obtain rfl : data1 = data := Except.ok.inj hvv
          exact validate_ok_secret_default cfg env.nonce data0 data1 hsec hv

/-- Witness for C6: a wrong secret on the round-2 request is rejected
401 with no calls made; the same request without a secret is not
secret-rejected and validates with the configured secret filled in. -/
theorem claim_C6_witness :
    ((deploy cfgEx envNoRepo [] (requestRound2 ++ [("secret", Value.vstr "bad")])
        false).status = 401 ∧
      (deploy cfgEx envNoRepo [] (requestRound2 ++ [("secret", Value.vstr "bad")])
        false).code = "INVALID_SECRET" ∧
      (deploy cfgEx envNoRepo [] (requestRound2 ++ [("secret", Value.vstr "bad")])
        false).calls = []) ∧
    ((deploy cfgEx envNoRepo [] requestRound2 false).status ≠ 401 ∧
      (deploy cfgEx envNoRepo [] requestRound2 false).code ≠ "INVALID_SECRET" ∧
      ∀ data : PyDict, validate_request cfgEx "n" requestRound2 = Except.ok data →
        aget data "secret" = some (Value.vstr cfgEx.user_secret)) :=
  ⟨(claim_C6 cfgEx envNoRepo [] false).1 (requestRound2 ++ [("secret", Value.vstr "bad")])
      "bad" rfl (by decide) (by decide),
   (claim_C6 cfgEx envNoRepo [] false).2 requestRound2 (Or.inl rfl)⟩

end LlmDeploy
